import Mathlib

/-!
Shallow embedding of the `sse` package (kaatinga/go-sse) in Lean 4.

The Go code is a single-file SSE (server-sent events) client: a feed reads
lines from an HTTP response body, parses `id:` / `event:` / `data:` field
lines into an in-progress `StringEvent`, and on a blank line dispatches the
completed event to every registered subscription whose event-type filter is
empty or matches.

Modelling decisions (all mirrored from the Go source, file `sse.go`):
  * Go strings are Lean `String`s; the helper functions `trimRightNewline`
    (for `strings.TrimRight(s, "\n")`), `goTrim` (for
    `strings.Trim(s, " ")`) and `splitN2` (for `strings.SplitN(s, ":", 2)`)
    are written out over `List Char`.
  * The `subscriptions` map is an association list keyed by subscription id;
    Go map assignment is `insertSub`, lookup is `List.find?`.
  * Channels: closing a subscription's delivery channel is recorded in the
    `feedClosed` flag; `close` of an already-closed channel and a send on a
    closed channel are Go runtime panics, modelled as `Fault` values.
    Successful sends are collected in an output list of
    (subscription id, event) pairs, and `errFeed` sends as a list of ids.
  * `sync.Mutex`: the field `mtxLocked` records whether `subscriptionsMtx`
    is held.  Acquiring it while already held by the same (sequential)
    caller never succeeds: `sync.Mutex` is not reentrant, so this is a
    self-deadlock, modelled as `Fault.deadlock`.  Every function that locks
    with `defer Unlock` returns with the flag as it found it.
  * Indexing `split[1]` when the split produced a single element is a Go
    index-out-of-range panic, modelled as `Fault.panicIndex`.
-/

/-- Runtime faults the Go code can hit: panics and mutex self-deadlock. -/
inductive Fault where
  /-- index out of range (e.g. `split[1]` when `split` has one element) -/
  | panicIndex : Fault
  /-- Go close of an already-closed channel -/
  | panicCloseOfClosedChannel : Fault
  /-- send on a closed channel -/
  | panicSendOnClosedChannel : Fault
  /-- goroutine blocks forever acquiring a `sync.Mutex` it already holds -/
  | deadlock : Fault
deriving Repr, DecidableEq

/-- Modelled from the spec: the event record type `StringEvent` (its Go
definition is not among the provided source files; its fields `Id`, `Event`,
`Data` and their string type are fixed by the assignments in
`SSEFeed.processRaw` and the construction at the blank-line dispatch). -/
structure StringEvent where
  Id : String
  Event : String
  Data : String
deriving Repr, DecidableEq

/-- Go `type Subscription struct`: id, event-type filter, and the state of
its delivery channel `feed` (`feedClosed` records whether `close(sub.feed)`
has happened).  The `parent` back-pointer is passed explicitly where needed;
`errFeed` sends are returned as outputs. -/
structure Subscription where
  id : String
  eventType : String
  feedClosed : Bool
deriving Repr, DecidableEq

/-- Go `type SSEFeed struct`. -/
structure SSEFeed where
  subscriptions : List Subscription
  /-- state of `subscriptionsMtx` -/
  mtxLocked : Bool
  /-- whether `stopChan` has been closed -/
  stopChanClosed : Bool
  closed : Bool
  unfinishedEvent : Option StringEvent
deriving Repr, DecidableEq

/-- Go `strings.TrimRight(s, "\n")` on the character list. -/
def trimRightNewlineList (l : List Char) : List Char :=
  (l.reverse.dropWhile (· = '\n')).reverse

/-- Go `strings.TrimRight(s, "\n")`. -/
def trimRightNewline (s : String) : String :=
  ⟨trimRightNewlineList s.data⟩

/-- Go `strings.Trim(s, " ")` on the character list: removes ALL leading and
trailing space characters. -/
def goTrimList (l : List Char) : List Char :=
  (((l.dropWhile (· = ' ')).reverse).dropWhile (· = ' ')).reverse

/-- Go `strings.Trim(s, " ")`. -/
def goTrim (s : String) : String :=
  ⟨goTrimList s.data⟩

/-- Go `strings.SplitN(s, ":", 2)` on the character list: the part before the
first `':'`, and `some` remainder when a `':'` occurs (`none` models the
length-1 slice a separator-free input yields). -/
def splitN2List : List Char → List Char × Option (List Char)
  | [] => ([], none)
  | c :: cs =>
    if c = ':' then ([], some cs)
    else
      let r := splitN2List cs
      (c :: r.1, r.2)

/-- Go `strings.SplitN(s, ":", 2)`. -/
def splitN2 (s : String) : String × Option String :=
  match splitN2List s.data with
  | (a, none) => (⟨a⟩, none)
  | (a, some b) => (⟨a⟩, some ⟨b⟩)

/-- Go map assignment `s.subscriptions[sub.id] = sub`. -/
def insertSub (subs : List Subscription) (sub : Subscription) : List Subscription :=
  if subs.any (·.id = sub.id) then
    subs.map (fun t => if t.id = sub.id then sub else t)
  else
    subs ++ [sub]

/-- Go `func (s *SSEFeed) Subscribe(eventType string) (*Subscription, error)`.
The fresh `uuid.New().String()` is passed in as `newId`.  Returns the new
feed state, the subscription handle (`none` = Go `nil`), and the error
message (`none` = Go `nil` error). -/
def SSEFeed.Subscribe (s : SSEFeed) (eventType : String) (newId : String) :
    Except Fault (SSEFeed × Option Subscription × Option String) :=
  if s.closed then
    .ok (s, none, some "sse feed closed")
  else
    let sub : Subscription := { id := newId, eventType := eventType, feedClosed := false }
    -- s.subscriptionsMtx.Lock(); defer s.subscriptionsMtx.Unlock()
    if s.mtxLocked then .error .deadlock
    else
      .ok ({ s with subscriptions := insertSub s.subscriptions sub }, some sub, none)

/-- The effect of `close(sub.feed)` on the registry: the channel of the
entry with this id is now closed (the entry itself stays). -/
def markClosed (subs : List Subscription) (id : String) : List Subscription :=
  subs.map fun t => if t.id = id then { t with feedClosed := true } else t

/-- Go `func (s *SSEFeed) closeSubscription(id string) bool`.  Locks the mutex;
if the id is present it closes the subscription's delivery channel (a panic
when that channel is already closed) and returns `true`; the entry is NOT
removed from the map.  Absent id: returns `false`. -/
def SSEFeed.closeSubscription (s : SSEFeed) (id : String) :
    Except Fault (SSEFeed × Bool) :=
  if s.mtxLocked then .error .deadlock
  else
    match s.subscriptions.find? (·.id = id) with
    | some sub =>
      if sub.feedClosed then .error .panicCloseOfClosedChannel
      else
        .ok ({ s with subscriptions := markClosed s.subscriptions id }, true)
    | none => .ok (s, false)

/-- Go `func (s *Subscription) Close()`: delegates to
`s.parent.closeSubscription(s.id)` (the parent feed is passed explicitly). -/
def Subscription.Close (sub : Subscription) (parent : SSEFeed) :
    Except Fault (SSEFeed × Bool) :=
  parent.closeSubscription sub.id

/-- Helper for `SSEFeed.Close`: the `for subId := range s.subscriptions`
loop body `s.closeSubscription(subId)` (return value discarded). -/
def closeAllSubs (s : SSEFeed) : List String → Except Fault SSEFeed
  | [] => .ok s
  | id :: ids =>
    match s.closeSubscription id with
    | .error f => .error f
    | .ok (s1, _) => closeAllSubs s1 ids

/-- Go `func (s *SSEFeed) Close()`: early return when already closed, else
close `stopChan`, close every subscription, set `closed`. -/
def SSEFeed.Close (s : SSEFeed) : Except Fault SSEFeed :=
  if s.closed then .ok s
  else if s.stopChanClosed then .error .panicCloseOfClosedChannel
  else
    let s1 := { s with stopChanClosed := true }
    match closeAllSubs s1 (s1.subscriptions.map (·.id)) with
    | .error f => .error f
    | .ok s2 => .ok { s2 with closed := true }

/-- The `for _, subscription := range s.subscriptions` dispatch loop in
`processRaw`: send `evt` on each matching subscription's feed channel
(panic when that channel is closed), collecting deliveries in order. -/
def sendToAll (evt : StringEvent) : List Subscription → Except Fault (List (String × StringEvent))
  | [] => .ok []
  | sub :: rest =>
    if sub.eventType = "" ∨ sub.eventType = evt.Event then
      if sub.feedClosed then .error .panicSendOnClosedChannel
      else
        match sendToAll evt rest with
        | .error f => .error f
        | .ok ds => .ok ((sub.id, evt) :: ds)
    else sendToAll evt rest

/-- Lines 170-189 of `processRaw`: strip the trailing newline, split on the
first colon, ignore comments/heartbeats (empty field name), create the
in-progress event when absent, and assign recognized fields.  Accessing
`split[1]` when the line had no colon is an index panic. -/
def SSEFeed.processRest (s : SSEFeed) (b : String) : Except Fault SSEFeed :=
  let payload := trimRightNewline b
  let split := splitN2 payload
  if split.1 = "" then .ok s
  else
    let ue := s.unfinishedEvent.getD { Id := "", Event := "", Data := "" }
    if split.1 = "id" then
      match split.2 with
      | none => .error .panicIndex
      | some v => .ok { s with unfinishedEvent := some { ue with Id := goTrim v } }
    else if split.1 = "event" then
      match split.2 with
      | none => .error .panicIndex
      | some v => .ok { s with unfinishedEvent := some { ue with Event := goTrim v } }
    else if split.1 = "data" then
      match split.2 with
      | none => .error .panicIndex
      | some v => .ok { s with unfinishedEvent := some { ue with Data := goTrim v } }
    else
      .ok { s with unfinishedEvent := some ue }

/-- Go `func (s *SSEFeed) processRaw(b []byte)`.  On exactly `"\n"` (the Go
test `len(b) == 1 && b[0] == '\n'`): lock the mutex, return early when no
event is in progress, else dispatch the completed event and fall through to
the common tail (which is a no-op for the blank line).  On any other line
the mutex is never taken and the common tail runs.  Returns the new state
and the list of (subscriber id, event) deliveries. -/
def SSEFeed.processRaw (s : SSEFeed) (b : String) :
    Except Fault (SSEFeed × List (String × StringEvent)) :=
  if b.data = ['\n'] then
    -- s.subscriptionsMtx.Lock(); defer s.subscriptionsMtx.Unlock()
    if s.mtxLocked then .error .deadlock
    else
      match s.unfinishedEvent with
      | none => .ok (s, [])
      | some ue =>
        let evt : StringEvent := { Id := ue.Id, Event := ue.Event, Data := ue.Data }
        let s1 := { s with unfinishedEvent := none }
        match sendToAll evt s1.subscriptions with
        | .error f => .error f
        | .ok ds =>
          match s1.processRest b with
          | .error f => .error f
          | .ok s2 => .ok (s2, ds)
  else
    match s.processRest b with
    | .error f => .error f
    | .ok s2 => .ok (s2, [])

/-- Go `func (s *SSEFeed) error(err error)`: lock the mutex, push the error
into every subscription's (1-buffered) error channel, then call `s.Close()`
while still holding the mutex.  Returns the ids whose error channel
received the error. -/
def SSEFeed.error (s : SSEFeed) : Except Fault (SSEFeed × List String) :=
  if s.mtxLocked then .error .deadlock
  else
    let sL := { s with mtxLocked := true }
    let recipients := sL.subscriptions.map (·.id)
    match sL.Close with
    | .error f => .error f
    | .ok s2 => .ok ({ s2 with mtxLocked := false }, recipients)

/-- Drop ONE leading space character, if present. -/
def dropOneSpace : List Char → List Char
  | ' ' :: cs => cs
  | l => l

/-- The trimming described by the spec sentence for claim C5 (NOT the code):
at most one leading and at most one trailing space character removed. -/
def trimOneSpace (s : String) : String :=
  ⟨(dropOneSpace ((dropOneSpace s.data).reverse)).reverse⟩

/-- The two pieces of state the spec says the mutex must guard. -/
inductive GuardedRes where
  | subsMap : GuardedRes
  | unfinished : GuardedRes
deriving Repr, DecidableEq

/-- One access to guarded state: which resource, and whether
`subscriptionsMtx` was held at that moment. -/
structure Access where
  target : GuardedRes
  lockHeld : Bool
deriving Repr, DecidableEq

/-- Lines 170-189 of `processRaw` again (same translation as
`SSEFeed.processRest`), instrumented with the trace of accesses to the
guarded state; `held` says whether the caller holds `subscriptionsMtx`
while this tail runs.  Line 178 reads `s.unfinishedEvent`, line 179 may
write it, and the recognized-field cases write through it. -/
def SSEFeed.processRestTraced (s : SSEFeed) (b : String) (held : Bool) :
    List Access × Except Fault SSEFeed :=
  let payload := trimRightNewline b
  let split := splitN2 payload
  if split.1 = "" then ([], .ok s)
  else
    -- line 178 nil-check read, line 179 initialising write
    let acc0 : List Access := [⟨.unfinished, held⟩, ⟨.unfinished, held⟩]
    let ue := s.unfinishedEvent.getD { Id := "", Event := "", Data := "" }
    if split.1 = "id" then
      match split.2 with
      | none => (acc0, .error .panicIndex)
      | some v =>
        (acc0 ++ [⟨.unfinished, held⟩],
         .ok { s with unfinishedEvent := some { ue with Id := goTrim v } })
    else if split.1 = "event" then
      match split.2 with
      | none => (acc0, .error .panicIndex)
      | some v =>
        (acc0 ++ [⟨.unfinished, held⟩],
         .ok { s with unfinishedEvent := some { ue with Event := goTrim v } })
    else if split.1 = "data" then
      match split.2 with
      | none => (acc0, .error .panicIndex)
      | some v =>
        (acc0 ++ [⟨.unfinished, held⟩],
         .ok { s with unfinishedEvent := some { ue with Data := goTrim v } })
    else
      (acc0, .ok { s with unfinishedEvent := some ue })

/-- The function `processRaw` again (same translation as `SSEFeed.processRaw`),
instrumented with the trace of accesses to the guarded state.  The mutex is
taken ONLY in the `b = "\n"` branch (and released when the call returns);
the field-line path runs entirely without it. -/
def SSEFeed.processRawTraced (s : SSEFeed) (b : String) :
    List Access × Except Fault (SSEFeed × List (String × StringEvent)) :=
  if b.data = ['\n'] then
    if s.mtxLocked then ([], .error .deadlock)
    else
      match s.unfinishedEvent with
      | none => ([⟨.unfinished, true⟩], .ok (s, []))
      | some ue =>
        let evt : StringEvent := { Id := ue.Id, Event := ue.Event, Data := ue.Data }
        let s1 := { s with unfinishedEvent := none }
        -- line 154 read, lines 157-161 read, line 162 write, line 163 map iteration
        let acc : List Access :=
          [⟨.unfinished, true⟩, ⟨.unfinished, true⟩, ⟨.unfinished, true⟩, ⟨.subsMap, true⟩]
        match sendToAll evt s1.subscriptions with
        | .error f => (acc, .error f)
        | .ok ds =>
          match s1.processRestTraced b true with
          | (acc2, .error f) => (acc ++ acc2, .error f)
          | (acc2, .ok s2) => (acc ++ acc2, .ok (s2, ds))
  else
    match s.processRestTraced b false with
    | (acc, .error f) => (acc, .error f)
    | (acc, .ok s2) => (acc, .ok (s2, []))

/-- The reader goroutine's per-line work, iterated over a list of lines
(each line as delivered by `reader.ReadBytes` keeps its trailing newline);
deliveries are concatenated in order. -/
def SSEFeed.processLines (s : SSEFeed) : List String →
    Except Fault (SSEFeed × List (String × StringEvent))
  | [] => .ok (s, [])
  | b :: bs =>
    match s.processRaw b with
    | .error f => .error f
    | .ok (s1, ds) =>
      match s1.processLines bs with
      | .error f => .error f
      | .ok (s2, ds2) => .ok (s2, ds ++ ds2)

/-! ### Helper lemmas about the string primitives -/

lemma dropWhile_eq_self_of_forall {α : Type} (p : α → Bool) (l : List α)
    (h : ∀ a ∈ l, p a = false) : l.dropWhile p = l := by
  cases l with
  | nil => rfl
  | cons a as => simp [List.dropWhile_cons, h a (by simp)]

lemma dropWhile_replicate_append {α : Type} (p : α → Bool) (a : α) (hp : p a = true)
    (k : Nat) (x : List α) : (List.replicate k a ++ x).dropWhile p = x.dropWhile p := by
  induction k with
  | zero => rfl
  | succ n ih => simp [List.replicate_succ, List.dropWhile_cons, hp, ih]

lemma trimRightNewlineList_append (l : List Char) (h : '\n' ∉ l) :
    trimRightNewlineList (l ++ ['\n']) = l := by
  unfold trimRightNewlineList
  rw [List.reverse_append]
  have h1 : List.dropWhile (· = '\n') ('\n' :: l.reverse) = List.dropWhile (· = '\n') l.reverse := by
    simp [List.dropWhile_cons]
  have h2 : List.dropWhile (· = '\n') l.reverse = l.reverse := by
    refine dropWhile_eq_self_of_forall _ _ fun a ha => ?_
    simp only [List.mem_reverse] at ha
    simp only [decide_eq_false_iff_not]
    exact fun hne => h (hne ▸ ha)
  simp [h1, h2]

lemma splitN2List_append (l r : List Char) (h : ':' ∉ l) :
    splitN2List (l ++ ':' :: r) = (l, some r) := by
  induction l with
  | nil => simp [splitN2List]
  | cons c cs ih =>
    have hc : ¬ c = ':' := fun he => h (by simp [he])
    have hcs : ':' ∉ cs := fun hm => h (by simp [hm])
    simp [splitN2List, hc, ih hcs]

lemma splitField (name : List Char) (v : String)
    (hnc : ':' ∉ name) (hnn : '\n' ∉ name) (hvn : '\n' ∉ v.data) :
    splitN2 (trimRightNewline ⟨name ++ ':' :: (v.data ++ ['\n'])⟩) = (⟨name⟩, some v) := by
  have hL : name ++ ':' :: (v.data ++ ['\n']) = (name ++ ':' :: v.data) ++ ['\n'] := by simp
  have hmem : '\n' ∉ name ++ ':' :: v.data := by
    intro hm
    rcases List.mem_append.mp hm with h1 | h1
    · exact hnn h1
    · rcases List.mem_cons.mp h1 with h2 | h2
      · exact absurd h2 (by decide)
      · exact hvn h2
  have htrim : trimRightNewline ⟨name ++ ':' :: (v.data ++ ['\n'])⟩ = ⟨name ++ ':' :: v.data⟩ := by
    unfold trimRightNewline
    show (⟨trimRightNewlineList (name ++ ':' :: (v.data ++ ['\n']))⟩ : String) = _
    rw [hL, trimRightNewlineList_append _ hmem]
  rw [htrim]
  unfold splitN2
  show (match splitN2List (name ++ ':' :: v.data) with
        | (a, none) => ((⟨a⟩ : String), (none : Option String))
        | (a, some b) => (⟨a⟩, some ⟨b⟩)) = _
  rw [splitN2List_append _ _ hnc]

lemma processRest_id (s : SSEFeed) (v : String) (hn : '\n' ∉ v.data) :
    s.processRest ("id:" ++ v ++ "\n") =
      .ok ({ s with
             unfinishedEvent := some
               ({ (s.unfinishedEvent.getD { Id := "", Event := "", Data := "" }) with
                  Id := goTrim v }) }) := by
  have hline : ("id:" ++ v ++ "\n") = (⟨['i','d'] ++ ':' :: (v.data ++ ['\n'])⟩ : String) := by
    apply String.ext
    show ("id:".data ++ v.data) ++ "\n".data = _
    simp
  rw [SSEFeed.processRest, hline, splitField ['i','d'] v (by decide) (by decide) hn]
  rfl

lemma processRest_event (s : SSEFeed) (v : String) (hn : '\n' ∉ v.data) :
    s.processRest ("event:" ++ v ++ "\n") =
      .ok ({ s with
             unfinishedEvent := some
               ({ (s.unfinishedEvent.getD { Id := "", Event := "", Data := "" }) with
                  Event := goTrim v }) }) := by
  have hline : ("event:" ++ v ++ "\n") =
      (⟨['e','v','e','n','t'] ++ ':' :: (v.data ++ ['\n'])⟩ : String) := by
    apply String.ext
    show ("event:".data ++ v.data) ++ "\n".data = _
    simp
  rw [SSEFeed.processRest, hline, splitField ['e','v','e','n','t'] v (by decide) (by decide) hn]
  rfl

lemma processRest_data (s : SSEFeed) (v : String) (hn : '\n' ∉ v.data) :
    s.processRest ("data:" ++ v ++ "\n") =
      .ok ({ s with
             unfinishedEvent := some
               ({ (s.unfinishedEvent.getD { Id := "", Event := "", Data := "" }) with
                  Data := goTrim v }) }) := by
  have hline : ("data:" ++ v ++ "\n") =
      (⟨['d','a','t','a'] ++ ':' :: (v.data ++ ['\n'])⟩ : String) := by
    apply String.ext
    show ("data:".data ++ v.data) ++ "\n".data = _
    simp
  rw [SSEFeed.processRest, hline, splitField ['d','a','t','a'] v (by decide) (by decide) hn]
  rfl

lemma sendToAll_all_open (evt : StringEvent) (subs : List Subscription)
    (h : ∀ sub ∈ subs, sub.feedClosed = false) :
    sendToAll evt subs =
      .ok ((subs.filter fun sub => decide (sub.eventType = "" ∨ sub.eventType = evt.Event)).map
            fun sub => (sub.id, evt)) := by
  induction subs with
  | nil => rfl
  | cons sub rest ih =>
    have hs : sub.feedClosed = false := h sub (by simp)
    have hr : ∀ t ∈ rest, t.feedClosed = false := fun t ht => h t (by simp [ht])
    by_cases hm : sub.eventType = "" ∨ sub.eventType = evt.Event
    · simp [sendToAll, hm, hs, ih hr, List.filter_cons]
    · simp [sendToAll, hm, ih hr, List.filter_cons]

lemma field_line_ne_blank (p v : String) (c : Char) (hp : p.data = c :: p.data.tail) :
    ((p ++ v) ++ "\n").data ≠ ['\n'] := by
  intro h
  rw [String.data_append, String.data_append, hp] at h
  simp at h

lemma processRaw_field_id (s : SSEFeed) (v : String) (hn : '\n' ∉ v.data) :
    s.processRaw ("id:" ++ v ++ "\n") =
      .ok ({ s with
             unfinishedEvent := some
               ({ (s.unfinishedEvent.getD { Id := "", Event := "", Data := "" }) with
                  Id := goTrim v }) }, []) := by
  rw [SSEFeed.processRaw,
      if_neg (field_line_ne_blank "id:" v 'i' rfl), processRest_id s v hn]

lemma processRaw_field_event (s : SSEFeed) (v : String) (hn : '\n' ∉ v.data) :
    s.processRaw ("event:" ++ v ++ "\n") =
      .ok ({ s with
             unfinishedEvent := some
               ({ (s.unfinishedEvent.getD { Id := "", Event := "", Data := "" }) with
                  Event := goTrim v }) }, []) := by
  rw [SSEFeed.processRaw,
      if_neg (field_line_ne_blank "event:" v 'e' rfl), processRest_event s v hn]

lemma processRaw_field_data (s : SSEFeed) (v : String) (hn : '\n' ∉ v.data) :
    s.processRaw ("data:" ++ v ++ "\n") =
      .ok ({ s with
             unfinishedEvent := some
               ({ (s.unfinishedEvent.getD { Id := "", Event := "", Data := "" }) with
                  Data := goTrim v }) }, []) := by
  rw [SSEFeed.processRaw,
      if_neg (field_line_ne_blank "data:" v 'd' rfl), processRest_data s v hn]

lemma processRaw_blank (s : SSEFeed) (ue : StringEvent)
    (hm : s.mtxLocked = false) (hu : s.unfinishedEvent = some ue)
    (hopen : ∀ sub ∈ s.subscriptions, sub.feedClosed = false) :
    s.processRaw "\n" =
      .ok ({ s with unfinishedEvent := none },
           (s.subscriptions.filter fun sub =>
              decide (sub.eventType = "" ∨ sub.eventType = ue.Event)).map
             fun sub => (sub.id, ue)) := by
  rw [SSEFeed.processRaw, if_pos (by decide : ("\n" : String).data = ['\n']), hm, hu]
  simp only [Bool.false_eq_true, if_false]
  rw [sendToAll_all_open ue s.subscriptions hopen]
  rfl

/-- C1: for a well-formed record `id:I` / `event:E` / `data:D` / blank line
(I, E, D without colon, newline, or leading/trailing spaces), every
subscriber whose filter is `""` or `E` receives the event `{I, E, D}`
exactly once, and every subscriber with a different non-empty filter
receives nothing. -/
theorem record_dispatch_exactly_once (s : SSEFeed) (I E D : String)
    (hm : s.mtxLocked = false) (hu : s.unfinishedEvent = none)
    (hopen : ∀ sub ∈ s.subscriptions, sub.feedClosed = false)
    (hIc : ':' ∉ I.data) (hIn : '\n' ∉ I.data) (hIt : goTrim I = I)
    (hEc : ':' ∉ E.data) (hEn : '\n' ∉ E.data) (hEt : goTrim E = E)
    (hDc : ':' ∉ D.data) (hDn : '\n' ∉ D.data) (hDt : goTrim D = D) :
    s.processLines ["id:" ++ I ++ "\n", "event:" ++ E ++ "\n", "data:" ++ D ++ "\n", "\n"] =
      .ok (s, (s.subscriptions.filter fun sub =>
                 decide (sub.eventType = "" ∨ sub.eventType = E)).map
                fun sub => (sub.id, { Id := I, Event := E, Data := D })) := by
  have h1 := processRaw_field_id s I hIn
  rw [hu] at h1
  simp only [Option.getD_none, hIt] at h1
  set s1 : SSEFeed := { s with unfinishedEvent := some { Id := I, Event := "", Data := "" } }
    with hs1
  have h2 := processRaw_field_event s1 E hEn
  simp only [hs1, Option.getD_some, hEt] at h2
  set s2 : SSEFeed := { s with unfinishedEvent := some { Id := I, Event := E, Data := "" } }
    with hs2
  have h3 := processRaw_field_data s2 D hDn
  simp only [hs2, Option.getD_some, hDt] at h3
  set s3 : SSEFeed := { s with unfinishedEvent := some { Id := I, Event := E, Data := D } }
    with hs3
  have h4 := processRaw_blank s3 { Id := I, Event := E, Data := D } hm rfl hopen
  have hback : ({ s3 with unfinishedEvent := none } : SSEFeed) = s := by
    rw [hs3]
    rw [← hu]
  rw [hback] at h4
  simp only [SSEFeed.processLines, h1, h2, h3, h4]
  simp

theorem record_dispatch_exactly_once_witness :
    (⟨[⟨"a", "", false⟩, ⟨"b", "E", false⟩, ⟨"c", "X", false⟩],
       false, false, false, none⟩ : SSEFeed).processLines
        ["id:" ++ "I" ++ "\n", "event:" ++ "E" ++ "\n", "data:" ++ "D" ++ "\n", "\n"] =
      .ok (⟨[⟨"a", "", false⟩, ⟨"b", "E", false⟩, ⟨"c", "X", false⟩],
            false, false, false, none⟩,
           [("a", ⟨"I", "E", "D"⟩), ("b", ⟨"I", "E", "D"⟩)]) := by
  rw [record_dispatch_exactly_once
        ⟨[⟨"a", "", false⟩, ⟨"b", "E", false⟩, ⟨"c", "X", false⟩], false, false, false, none⟩
        "I" "E" "D" rfl rfl (by decide) (by decide) (by decide) (by decide) (by decide)
        (by decide) (by decide) (by decide) (by decide) (by decide)]
  rfl

/-- C2: FALSE of the code — a protocol line with no colon whose whole
content is a recognized field name (`data`, `id`, `event`) makes
`processRaw` index `split[1]` on a one-element slice, an index-out-of-range
panic, for every feed state.  (The claim says processing any single line is
total and never panics.) -/
theorem processRaw_colonless_data_panics (s : SSEFeed) :
    s.processRaw "data\n" = .error .panicIndex := by
  rfl

theorem processRaw_colonless_data_panics_witness :
    (⟨[], false, false, false, none⟩ : SSEFeed).processRaw "data\n" = .error .panicIndex :=
  processRaw_colonless_data_panics ⟨[], false, false, false, none⟩

/-- C7: when the feed's `closed` flag is set, `Subscribe` synchronously
returns a `nil` handle and a non-`nil` error, and the feed state is
completely unchanged. -/
theorem subscribe_after_closed_rejected (s : SSEFeed) (eventType newId : String)
    (h : s.closed = true) :
    s.Subscribe eventType newId = .ok (s, none, some "sse feed closed") := by
  rw [SSEFeed.Subscribe, if_pos h]

theorem subscribe_after_closed_rejected_witness :
    (⟨[⟨"a", "", false⟩], false, false, true, none⟩ : SSEFeed).closed = true ∧
    (⟨[⟨"a", "", false⟩], false, false, true, none⟩ : SSEFeed).Subscribe "E" "fresh" =
      .ok (⟨[⟨"a", "", false⟩], false, false, true, none⟩, none, some "sse feed closed") :=
  ⟨rfl, subscribe_after_closed_rejected ⟨[⟨"a", "", false⟩], false, false, true, none⟩ "E" "fresh" rfl⟩

lemma find?_markClosed (subs : List Subscription) (id : String) (sub : Subscription)
    (h : subs.find? (·.id = id) = some sub) :
    (markClosed subs id).find? (·.id = id) = some ({ sub with feedClosed := true }) := by
  induction subs with
  | nil => simp at h
  | cons a as ih =>
    by_cases ha : a.id = id
    · simp [List.find?_cons, ha] at h
      simp [markClosed, List.find?_cons, ha, ← h]
    · simp [List.find?_cons, ha] at h
      simpa [markClosed, List.find?_cons, ha] using ih h

/-- C9: `closeSubscription` closes the delivery channel but never deletes
the map entry, so after a successful close the id is still found; a second
call takes the found branch again (heading for `return true`) and performs
`close` on an already-closed channel, a panic. -/
theorem second_subscription_close_panics (s : SSEFeed) (id : String) (sub : Subscription)
    (hm : s.mtxLocked = false)
    (hf : s.subscriptions.find? (·.id = id) = some sub)
    (ho : sub.feedClosed = false) :
    s.closeSubscription id =
      .ok ({ s with subscriptions := markClosed s.subscriptions id }, true) ∧
    (markClosed s.subscriptions id).find? (·.id = id) =
      some ({ sub with feedClosed := true }) ∧
    ({ s with subscriptions := markClosed s.subscriptions id } : SSEFeed).closeSubscription id =
      .error .panicCloseOfClosedChannel := by
  have hfind := find?_markClosed s.subscriptions id sub hf
  refine ⟨?_, hfind, ?_⟩
  · rw [SSEFeed.closeSubscription, hm]
    simp only [Bool.false_eq_true, if_false]
    rw [hf]
    simp [ho]
  · rw [SSEFeed.closeSubscription]
    show (if s.mtxLocked = true then _ else _) = _
    rw [hm]
    simp only [Bool.false_eq_true, if_false]
    rw [hfind]
    simp

theorem second_subscription_close_panics_witness :
    (⟨[⟨"a", "", false⟩, ⟨"b", "E", false⟩], false, false, false, none⟩ : SSEFeed).closeSubscription "a" =
      .ok (⟨[⟨"a", "", true⟩, ⟨"b", "E", false⟩], false, false, false, none⟩, true) ∧
    (⟨[⟨"a", "", true⟩, ⟨"b", "E", false⟩], false, false, false, none⟩ : SSEFeed).closeSubscription "a" =
      .error .panicCloseOfClosedChannel := by
  have h := second_subscription_close_panics
    ⟨[⟨"a", "", false⟩, ⟨"b", "E", false⟩], false, false, false, none⟩ "a"
    ⟨"a", "", false⟩ rfl (by decide) rfl
  exact ⟨h.1, h.2.2⟩

/-- C3: FALSE of the code at a concrete input — `closeSubscription` returns
`true` but the entry is still in the registry, and processing the next
complete record panics sending on the closed channel instead of skipping
this subscriber and serving the others.  (The claim says the subscription
is removed and later deliveries to other subscribers continue.) -/
theorem closeSubscription_leaves_entry_and_next_dispatch_panics :
    (⟨[⟨"a", "", false⟩, ⟨"b", "E", false⟩], false, false, false, none⟩ : SSEFeed).closeSubscription "a" =
      .ok (⟨[⟨"a", "", true⟩, ⟨"b", "E", false⟩], false, false, false, none⟩, true) ∧
    (⟨[⟨"a", "", true⟩, ⟨"b", "E", false⟩], false, false, false, none⟩ : SSEFeed).subscriptions.find?
        (·.id = "a") = some ⟨"a", "", true⟩ ∧
    (⟨[⟨"a", "", true⟩, ⟨"b", "E", false⟩], false, false, false, none⟩ : SSEFeed).processLines
        ["data:D\n", "\n"] = .error .panicSendOnClosedChannel := by
  refine ⟨rfl, by decide, rfl⟩

/-- C4: FALSE of the code whenever at least one subscriber is registered —
`error` pushes the error to each subscriber's error channel while holding
`subscriptionsMtx`, then calls `Close`, whose per-subscription
`closeSubscription` tries to acquire the same (non-reentrant) mutex: the
reader goroutine self-deadlocks and the feed never reaches the closed
state.  (The claim says the feed subsequently transitions to closed.) -/
theorem error_with_subscribers_deadlocks (s : SSEFeed)
    (hm : s.mtxLocked = false) (hc : s.closed = false) (hst : s.stopChanClosed = false)
    (hne : s.subscriptions ≠ []) :
    s.error = .error .deadlock := by
  obtain ⟨a, as, hsub⟩ := List.exists_cons_of_ne_nil hne
  simp [SSEFeed.error, SSEFeed.Close, closeAllSubs, SSEFeed.closeSubscription, hm, hc, hst, hsub]

theorem error_with_subscribers_deadlocks_witness :
    (⟨[⟨"a", "", false⟩], false, false, false, none⟩ : SSEFeed).error = .error .deadlock :=
  error_with_subscribers_deadlocks ⟨[⟨"a", "", false⟩], false, false, false, none⟩
    rfl rfl rfl (by decide)

lemma dropWhile_replicate_nil {α : Type} (p : α → Bool) (a : α) (hp : p a = true) (m : Nat) :
    (List.replicate m a).dropWhile p = [] := by
  have := dropWhile_replicate_append p a hp m ([] : List α)
  simpa using this

lemma goTrimList_pad (k m : Nat) (l : List Char) (h : goTrimList l = l) :
    goTrimList (List.replicate k ' ' ++ (l ++ List.replicate m ' ')) = l := by
  unfold goTrimList at h ⊢
  rw [dropWhile_replicate_append _ _ (by decide) k (l ++ List.replicate m ' ')]
  rw [List.dropWhile_append]
  by_cases hE : (l.dropWhile (· = ' ')).isEmpty
  · rw [if_pos hE, dropWhile_replicate_nil _ _ (by decide) m]
    rw [List.isEmpty_iff] at hE
    rw [hE] at h
    simp at h
    simp [h]
  · rw [if_neg hE, List.reverse_append, List.reverse_replicate,
        dropWhile_replicate_append _ _ (by decide) m]
    exact h

/-- C5 counterexample: the code stores `strings.Trim(value, " ")`, which
strips ALL leading and trailing spaces — on `data:  x  ` it stores `"x"`,
not the `" x "` that the claimed at-most-one-space-per-side trim
(`trimOneSpace`) would produce. -/
theorem trim_is_not_single_space_trim :
    (⟨[], false, false, false, none⟩ : SSEFeed).processRaw "data:  x  \n" =
      .ok (⟨[], false, false, false, some ⟨"", "", "x"⟩⟩, []) ∧
    trimOneSpace "  x  " = " x " ∧ ("x" : String) ≠ " x " :=
  ⟨rfl, rfl, by decide⟩

/-- C5 (amended): the value of a recognized field line has ALL its leading
and trailing space characters removed (a two-sided `strings.Trim` with the
single-character cutset `" "`), not just one per side; other characters,
including other whitespace, are untouched. -/
theorem field_value_trims_all_spaces (s : SSEFeed) (k m : Nat) (v : String)
    (hn : '\n' ∉ v.data) (ht : goTrim v = v) :
    s.processRaw ("data:" ++ ((⟨List.replicate k ' '⟩ : String) ++ v ++ ⟨List.replicate m ' '⟩) ++ "\n") =
      .ok ({ s with
             unfinishedEvent := some
               ({ (s.unfinishedEvent.getD { Id := "", Event := "", Data := "" }) with
                  Data := v }) }, []) := by
  have hn2 : '\n' ∉ ((⟨List.replicate k ' '⟩ : String) ++ v ++ ⟨List.replicate m ' '⟩).data := by
    intro hmem
    rw [String.data_append, String.data_append] at hmem
    rcases List.mem_append.mp hmem with h1 | h1
    · rcases List.mem_append.mp h1 with h2 | h2
      · exact absurd (List.eq_of_mem_replicate h2) (by decide)
      · exact hn h2
    · exact absurd (List.eq_of_mem_replicate h1) (by decide)
  have htrim : goTrim ((⟨List.replicate k ' '⟩ : String) ++ v ++ ⟨List.replicate m ' '⟩) = v := by
    have hl : goTrimList v.data = v.data := congrArg String.data ht
    have := goTrimList_pad k m v.data hl
    apply String.ext
    show goTrimList ((⟨List.replicate k ' '⟩ : String) ++ v ++ ⟨List.replicate m ' '⟩).data = v.data
    rw [String.data_append, String.data_append]
    show goTrimList (List.replicate k ' ' ++ v.data ++ List.replicate m ' ') = v.data
    rw [List.append_assoc]
    exact this
  have h := processRaw_field_data s ((⟨List.replicate k ' '⟩ : String) ++ v ++ ⟨List.replicate m ' '⟩) hn2
  rw [htrim] at h
  exact h

theorem field_value_trims_all_spaces_witness :
    (⟨[], false, false, false, none⟩ : SSEFeed).processRaw
        ("data:" ++ ((⟨List.replicate 2 ' '⟩ : String) ++ "x" ++ ⟨List.replicate 3 ' '⟩) ++ "\n") =
      .ok (⟨[], false, false, false, some ⟨"", "", "x"⟩⟩, []) := by
  rw [field_value_trims_all_spaces ⟨[], false, false, false, none⟩ 2 3 "x" (by decide) rfl]
  rfl

/-- C6: within one record, field assignment is last-write-wins — a later
`data:` (resp. `id:`, `event:`) line overwrites whatever the in-progress
event already held for that field, and a record with two `data:` lines
emits only the second value (no concatenation). -/
theorem repeated_fields_last_write_wins :
    (∀ (s : SSEFeed) (u : StringEvent) (v : String),
        s.unfinishedEvent = some u → '\n' ∉ v.data →
        s.processRaw ("data:" ++ v ++ "\n") =
          .ok ({ s with unfinishedEvent := some ({ u with Data := goTrim v }) }, [])) ∧
    (∀ (s : SSEFeed) (u : StringEvent) (v : String),
        s.unfinishedEvent = some u → '\n' ∉ v.data →
        s.processRaw ("id:" ++ v ++ "\n") =
          .ok ({ s with unfinishedEvent := some ({ u with Id := goTrim v }) }, [])) ∧
    (∀ (s : SSEFeed) (u : StringEvent) (v : String),
        s.unfinishedEvent = some u → '\n' ∉ v.data →
        s.processRaw ("event:" ++ v ++ "\n") =
          .ok ({ s with unfinishedEvent := some ({ u with Event := goTrim v }) }, [])) ∧
    (∀ (s : SSEFeed) (v1 v2 : String),
        s.mtxLocked = false → s.unfinishedEvent = none →
        (∀ sub ∈ s.subscriptions, sub.feedClosed = false) →
        '\n' ∉ v1.data → '\n' ∉ v2.data → goTrim v2 = v2 →
        s.processLines ["data:" ++ v1 ++ "\n", "data:" ++ v2 ++ "\n", "\n"] =
          .ok (s, (s.subscriptions.filter fun sub =>
                     decide (sub.eventType = "" ∨ sub.eventType = "")).map
                    fun sub => (sub.id, { Id := "", Event := "", Data := v2 }))) := by
  refine ⟨?_, ?_, ?_, ?_⟩
  · intro s u v hu hn
    have h := processRaw_field_data s v hn
    rw [hu] at h
    simpa using h
  · intro s u v hu hn
    have h := processRaw_field_id s v hn
    rw [hu] at h
    simpa using h
  · intro s u v hu hn
    have h := processRaw_field_event s v hn
    rw [hu] at h
    simpa using h
  · intro s v1 v2 hm hu hopen h1n h2n h2t
    have h1 := processRaw_field_data s v1 h1n
    rw [hu] at h1
    simp only [Option.getD_none] at h1
    set s1 : SSEFeed := { s with unfinishedEvent := some { Id := "", Event := "", Data := goTrim v1 } }
      with hs1
    have h2 := processRaw_field_data s1 v2 h2n
    simp only [hs1, Option.getD_some, h2t] at h2
    set s2 : SSEFeed := { s with unfinishedEvent := some { Id := "", Event := "", Data := v2 } }
      with hs2
    have h3 := processRaw_blank s2 { Id := "", Event := "", Data := v2 } hm rfl hopen
    have hback : ({ s2 with unfinishedEvent := none } : SSEFeed) = s := by
      rw [hs2]
      rw [← hu]
    rw [hback] at h3
    simp only [SSEFeed.processLines, h1, h2, h3]
    simp

theorem repeated_fields_last_write_wins_witness :
    (⟨[], false, false, false, some ⟨"old", "oldE", "oldD"⟩⟩ : SSEFeed).processRaw "data:new\n" =
      .ok (⟨[], false, false, false, some ⟨"old", "oldE", "new"⟩⟩, []) ∧
    (⟨[⟨"a", "", false⟩], false, false, false, none⟩ : SSEFeed).processLines
        ["data:" ++ "v1" ++ "\n", "data:" ++ "v2" ++ "\n", "\n"] =
      .ok (⟨[⟨"a", "", false⟩], false, false, false, none⟩, [("a", ⟨"", "", "v2"⟩)]) := by
  constructor
  · have h := repeated_fields_last_write_wins.1
      ⟨[], false, false, false, some ⟨"old", "oldE", "oldD"⟩⟩ ⟨"old", "oldE", "oldD"⟩ "new"
      rfl (by decide)
    rw [show ("data:" ++ "new" ++ "\n" : String) = "data:new\n" from rfl] at h
    rw [h]
    rfl
  · rw [repeated_fields_last_write_wins.2.2.2
        ⟨[⟨"a", "", false⟩], false, false, false, none⟩ "v1" "v2"
        rfl rfl (by decide) (by decide) (by decide) rfl]
    rfl

lemma processRest_preserves (s s' : SSEFeed) (b : String)
    (h : s.processRest b = .ok s') :
    s'.closed = s.closed ∧ s'.subscriptions = s.subscriptions ∧
    s'.mtxLocked = s.mtxLocked ∧ s'.stopChanClosed = s.stopChanClosed := by
  rw [SSEFeed.processRest] at h
  split at h
  · simp only [Except.ok.injEq] at h
    subst h
    exact ⟨rfl, rfl, rfl, rfl⟩
  · split at h
    · split at h
      · exact absurd h (by simp)
      · simp only [Except.ok.injEq] at h
        subst h
        exact ⟨rfl, rfl, rfl, rfl⟩
    · split at h
      · split at h
        · exact absurd h (by simp)
        · simp only [Except.ok.injEq] at h
          subst h
          exact ⟨rfl, rfl, rfl, rfl⟩
      · split at h
        · split at h
          · exact absurd h (by simp)
          · simp only [Except.ok.injEq] at h
            subst h
            exact ⟨rfl, rfl, rfl, rfl⟩
        · simp only [Except.ok.injEq] at h
          subst h
          exact ⟨rfl, rfl, rfl, rfl⟩

lemma processRaw_closed_eq (s s' : SSEFeed) (b : String)
    (ds : List (String × StringEvent)) (h : s.processRaw b = .ok (s', ds)) :
    s'.closed = s.closed := by
  rw [SSEFeed.processRaw] at h
  split at h
  · split at h
    · exact absurd h (by simp)
    · split at h
      · simp only [Except.ok.injEq, Prod.mk.injEq] at h
        rw [← h.1]
      · dsimp only at h
        split at h
        · exact absurd h (by simp)
        · split at h
          · exact absurd h (by simp)
          · rename_i ue hne hsend ds2 s2 hrest
            simp only [Except.ok.injEq, Prod.mk.injEq] at h
            rw [← h.1]
            exact (processRest_preserves _ _ _ hrest).1
  · split at h
    · exact absurd h (by simp)
    · rename_i s2 hrest
      simp only [Except.ok.injEq, Prod.mk.injEq] at h
      rw [← h.1]
      exact (processRest_preserves _ _ _ hrest).1

lemma closeSubscription_closed_eq (s s' : SSEFeed) (id : String) (r : Bool)
    (h : s.closeSubscription id = .ok (s', r)) : s'.closed = s.closed := by
  rw [SSEFeed.closeSubscription] at h
  split at h
  · exact absurd h (by simp)
  · split at h
    · split at h
      · exact absurd h (by simp)
      · simp only [Except.ok.injEq, Prod.mk.injEq] at h
        rw [← h.1]
    · simp only [Except.ok.injEq, Prod.mk.injEq] at h
      rw [← h.1]

lemma closeAllSubs_closed_eq (ids : List String) (s s' : SSEFeed)
    (h : closeAllSubs s ids = .ok s') : s'.closed = s.closed := by
  induction ids generalizing s with
  | nil =>
    simp only [closeAllSubs, Except.ok.injEq] at h
    rw [h]
  | cons id ids ih =>
    rw [closeAllSubs] at h
    split at h
    · exact absurd h (by simp)
    · rename_i s1 r heq
      exact (ih s1 h).trans (closeSubscription_closed_eq s s1 id r heq)

lemma close_sets_closed (s s' : SSEFeed) (h : s.Close = .ok s') : s'.closed = true := by
  rw [SSEFeed.Close] at h
  split at h
  · rename_i hc
    simp only [Except.ok.injEq] at h
    rw [← h]
    exact hc
  · split at h
    · exact absurd h (by simp)
    · dsimp only at h
      split at h
      · exact absurd h (by simp)
      · simp only [Except.ok.injEq] at h
        rw [← h]

/-- C8: the `closed` flag never goes back from `true` to `false` under any
operation — `Close` on an already-closed feed is an exact no-op, `Subscribe`,
`closeSubscription` and `processRaw` leave the flag untouched, a successful
`error` ends with it `true`, and a successful `Close` ends with it `true`. -/
theorem closed_flag_monotone :
    (∀ s : SSEFeed, s.closed = true → s.Close = .ok s) ∧
    (∀ (s s' : SSEFeed) (et nid : String) (r : Option Subscription) (e : Option String),
        s.Subscribe et nid = .ok (s', r, e) → s'.closed = s.closed) ∧
    (∀ (s s' : SSEFeed) (id : String) (r : Bool),
        s.closeSubscription id = .ok (s', r) → s'.closed = s.closed) ∧
    (∀ (s s' : SSEFeed) (b : String) (ds : List (String × StringEvent)),
        s.processRaw b = .ok (s', ds) → s'.closed = s.closed) ∧
    (∀ (s s' : SSEFeed) (r : List String),
        s.error = .ok (s', r) → s'.closed = true) ∧
    (∀ (s s' : SSEFeed), s.Close = .ok s' → s'.closed = true) := by
  refine ⟨?_, ?_, ?_, ?_, ?_, close_sets_closed⟩
  · intro s h
    rw [SSEFeed.Close, if_pos h]
  · intro s s' et nid r e h
    rw [SSEFeed.Subscribe] at h
    split at h
    · simp only [Except.ok.injEq, Prod.mk.injEq] at h
      rw [← h.1]
    · dsimp only at h
      split at h
      · exact absurd h (by simp)
      · simp only [Except.ok.injEq, Prod.mk.injEq] at h
        rw [← h.1]
  · exact fun s s' id r h => closeSubscription_closed_eq s s' id r h
  · exact fun s s' b ds h => processRaw_closed_eq s s' b ds h
  · intro s s' r h
    rw [SSEFeed.error] at h
    split at h
    · exact absurd h (by simp)
    · dsimp only at h
      split at h
      · exact absurd h (by simp)
      · rename_i s2 heq
        have h2 := close_sets_closed _ _ heq
        simp only [Except.ok.injEq, Prod.mk.injEq] at h
        rw [← h.1]
        exact h2

theorem closed_flag_monotone_witness :
    ((⟨[], false, true, true, none⟩ : SSEFeed).Close = .ok ⟨[], false, true, true, none⟩) ∧
    ((⟨[], false, true, true, none⟩ : SSEFeed).closed = (⟨[], false, true, true, none⟩ : SSEFeed).closed) ∧
    ((⟨[], false, true, true, none⟩ : SSEFeed).closed = true) ∧
    ((⟨[], false, true, true, none⟩ : SSEFeed).closed = (⟨[⟨"a", "X", false⟩], false, false, false, none⟩ : SSEFeed).closed → False) ∧
    ((⟨[], false, true, true, none⟩ : SSEFeed).closed = true) := by
  refine ⟨closed_flag_monotone.1 ⟨[], false, true, true, none⟩ rfl, ?_, ?_, by decide, ?_⟩
  · exact closed_flag_monotone.2.1 ⟨[], false, true, true, none⟩ ⟨[], false, true, true, none⟩
      "E" "n" none (some "sse feed closed") rfl
  · exact closed_flag_monotone.2.2.2.2.1 ⟨[], false, false, false, none⟩
      ⟨[], false, true, true, none⟩ [] rfl
  · exact closed_flag_monotone.2.2.2.2.2 ⟨[], false, false, false, none⟩
      ⟨[], false, true, true, none⟩ rfl

lemma processRestTraced_trace (s : SSEFeed) (b : String) (held : Bool) :
    ∀ a ∈ (s.processRestTraced b held).1, a = Access.mk GuardedRes.unfinished held := by
  intro a ha
  rw [SSEFeed.processRestTraced] at ha
  by_cases h0 : (splitN2 (trimRightNewline b)).1 = ""
  · simp [h0] at ha
  · by_cases hid : (splitN2 (trimRightNewline b)).1 = "id"
    · cases h2 : (splitN2 (trimRightNewline b)).2 with
      | none => simp [h0, hid, h2] at ha; exact ha
      | some v => simp [h0, hid, h2] at ha; exact ha
    · by_cases hev : (splitN2 (trimRightNewline b)).1 = "event"
      · cases h2 : (splitN2 (trimRightNewline b)).2 with
        | none => simp [h0, hid, hev, h2] at ha; exact ha
        | some v => simp [h0, hid, hev, h2] at ha; exact ha
      · by_cases hda : (splitN2 (trimRightNewline b)).1 = "data"
        · cases h2 : (splitN2 (trimRightNewline b)).2 with
          | none => simp [h0, hid, hev, hda, h2] at ha; exact ha
          | some v => simp [h0, hid, hev, hda, h2] at ha; exact ha
        · simp [h0, hid, hev, hda] at ha; exact ha

/-- C10 counterexample: processing the field line `data:x` (the reader
goroutine's ordinary path) accesses `unfinishedEvent` with the mutex NOT
held — the claim that every access to the guarded state happens under
`subscriptionsMtx` is false. -/
theorem processRaw_accesses_unfinished_unlocked :
    Access.mk GuardedRes.unfinished false ∈
      ((⟨[], false, false, false, none⟩ : SSEFeed).processRawTraced "data:x\n").1 := by
  decide

/-- C10 (amended): in `processRaw`, the blank-line completion path performs
all its guarded-state accesses (to `unfinishedEvent` and to the
subscriptions map) while holding the mutex, whereas the field-line path
touches only `unfinishedEvent` and always without the mutex. -/
theorem processRaw_lock_discipline :
    (∀ (s : SSEFeed) (b : String), b.data ≠ ['\n'] →
        ∀ a ∈ (s.processRawTraced b).1,
          a.target = GuardedRes.unfinished ∧ a.lockHeld = false) ∧
    (∀ s : SSEFeed, s.mtxLocked = false →
        ∀ a ∈ (s.processRawTraced "\n").1, a.lockHeld = true) := by
  constructor
  · intro s b hb a ha
    rw [SSEFeed.processRawTraced, if_neg hb] at ha
    have htr := processRestTraced_trace s b false
    rcases hres : s.processRestTraced b false with ⟨acc, res⟩
    rw [hres] at ha htr
    cases res with
    | error f =>
      simp only at ha
      have := htr a ha
      simp [this]
    | ok s2 =>
      simp only at ha
      have := htr a ha
      simp [this]
  · intro s hm a ha
    rw [SSEFeed.processRawTraced,
        if_pos (by decide : ("\n" : String).data = ['\n'])] at ha
    rw [hm] at ha
    simp only [Bool.false_eq_true, if_false] at ha
    cases hu : s.unfinishedEvent with
    | none =>
      rw [hu] at ha
      simp at ha
      simp [ha]
    | some ue =>
      rw [hu] at ha
      dsimp only at ha
      cases hsend : sendToAll { Id := ue.Id, Event := ue.Event, Data := ue.Data }
          ({ s with unfinishedEvent := none } : SSEFeed).subscriptions with
      | error f =>
        rw [hsend] at ha
        fin_cases ha <;> rfl
      | ok ds =>
        rw [hsend] at ha
        dsimp only at ha
        have hrest : (⟨s.subscriptions, false, s.stopChanClosed, s.closed, none⟩ : SSEFeed).processRestTraced "\n" true =
            ([], .ok (⟨s.subscriptions, false, s.stopChanClosed, s.closed, none⟩ : SSEFeed)) := rfl
        rw [hrest] at ha
        simp only [List.append_nil] at ha
        fin_cases ha <;> rfl

theorem processRaw_lock_discipline_witness :
    ((Access.mk GuardedRes.unfinished false).target = GuardedRes.unfinished ∧
     (Access.mk GuardedRes.unfinished false).lockHeld = false) ∧
    (Access.mk GuardedRes.unfinished true).lockHeld = true :=
  ⟨processRaw_lock_discipline.1 ⟨[], false, false, false, none⟩ "data:x\n" (by decide)
     (Access.mk GuardedRes.unfinished false) (by decide),
   processRaw_lock_discipline.2 ⟨[], false, false, false, some ⟨"", "", ""⟩⟩ rfl
     (Access.mk GuardedRes.unfinished true) (by decide)⟩
